import Mathlib

/-!
Verification of the rnplay-cli repository: a shallow embedding of the two
implementations of the CLI (the current src/src/index.js and the legacy
rnplay-cli.js, plus the utils modules under src/unnamed), with the external
collaborators (file system, HTTP client, shell, cli logger) represented by
explicit outcome parameters and effect traces.
-/

deriving instance DecidableEq for Except

namespace Rnplay

/-- Credentials stored in the global config file (spec section 3): the JSON
object with token and email. The empty string models a JS-falsy (absent or
empty) field, matching the checks in both implementations. -/
structure GlobalConfig where
  token : String
  email : String
deriving DecidableEq

/-- The per-repository local config of the current implementation: the JSON
object with urlToken. none models an absent field. -/
structure LocalConfig where
  urlToken : Option String
deriving DecidableEq

/-- Abstract state of a JSON config file on disk: absent, present but not
valid JSON, or present and parsed to a GlobalConfig. -/
inductive GlobalFileState where
  | missing
  | corrupt
  | valid (c : GlobalConfig)
deriving DecidableEq

/-- The error taxonomy of spec section 7, plus the two failure modes the code
itself produces: a failed local-config write and the ReferenceError thrown by
the current createGitRepo after a successful exec (see createGitRepo below). -/
inductive Err where
  | configMissingOrCorrupt
  | invalidConfig
  | remoteApiError
  | saveError
  | shellCommandError
  | referenceError
deriving DecidableEq

/-- The request body built by postCreateRepo (src/unnamed/part_001 lines 9-17):
JSON.stringify of an object app with the name and uses_git: 1. -/
def jsonStringifyApp (name : String) : String :=
  "\x7b\"app\":\x7b\"name\":\"" ++ name ++ "\",\"uses_git\":1\x7d\x7d"

/-- One POST issued by postCreateRepo: the repo name, the serialized body and
the two auth headers X-User-Email / X-User-Token. -/
structure ApiCall where
  name : String
  body : String
  email : String
  token : String
deriving DecidableEq

def mkApiCall (name : String) (c : GlobalConfig) : ApiCall :=
  ⟨name, jsonStringifyApp name, c.email, c.token⟩

/-- readConfig at the file-state level (legacy copy: rnplay-cli.js lines 53-61;
the current utils/config is not under src and is modelled from the spec,
section 4.1, with the same contract): a missing or unparsable file becomes the
missing-or-corrupt error. -/
def readConfigG : GlobalFileState → Except Err GlobalConfig
  | .missing => .error .configMissingOrCorrupt
  | .corrupt => .error .configMissingOrCorrupt
  | .valid c => .ok c

/-- checkConfig (src/src/index.js lines 67-73): throws the invalid-config
error when email or token is JS-falsy. -/
def checkConfig (c : GlobalConfig) : Except Err GlobalConfig :=
  if c.email = "" ∨ c.token = "" then .error .invalidConfig else .ok c

/-- getConfig (src/src/index.js line 79): readConfig then checkConfig. -/
def getConfig (g : GlobalFileState) : Except Err GlobalConfig :=
  match readConfigG g with
  | .error e => .error e
  | .ok c => checkConfig c

/-- The environment prefix (src/src/index.js lines 36-37): the value of the
RNPLAY_ENV variable followed by a dot when set, empty otherwise. -/
def PREFIX (env : Option String) : String :=
  match env with
  | some v => v ++ "."
  | none => ""

/-- RNPLAY_APP_URL of the current implementation (src/src/index.js line 38). -/
def RNPLAY_APP_URL (env : Option String) : String :=
  "https://" ++ PREFIX env ++ "rnplay.org/apps/"

/-- Modelled from the spec: the current implementation's api module (createApi,
imported at src/src/index.js line 30) is not under src; spec section 6 gives the
endpoint POST baseUrl/apps.json with the environment prefix applied to the
hostname. -/
def apiEndpointCurrent (env : Option String) : String :=
  "https://" ++ PREFIX env ++ "rnplay.org/apps.json"

/-- RN_PLAY_APP_URL of the legacy implementation (rnplay-cli.js line 20): a
constant, the environment variable is never consulted. -/
def RN_PLAY_APP_URL_legacy : String := "https://rnplay.org/apps/"

/-- APP_ENDPOINT of the legacy api module (src/unnamed/part_001 line 7): a
constant with the staging host hardcoded. -/
def APP_ENDPOINT_legacy : String := "https://staging.rnplay.org/apps.json"

/-- The hostname of one of the program's https URLs: the characters after the
scheme, up to the first slash. -/
def hostOf (u : String) : String :=
  String.mk ((u.data.drop 8).takeWhile (fun c => c != '/'))

/-- The fixed git remote name used by both implementations. -/
def remoteName : String := "rnplay"

/-- The url built inside formatCommand (src/src/index.js line 83). Note the
host is hardcoded; PREFIX is not applied here. -/
def gitUrl (urlToken : String) (config : GlobalConfig) : String :=
  "https://" ++ config.token ++ ":@git.rnplay.org/" ++ urlToken ++ ".git"

/-- formatCommand (src/src/index.js lines 81-85). -/
def formatCommand (urlToken : String) (config : GlobalConfig) : String :=
  "git remote add " ++ remoteName ++ " " ++ gitUrl urlToken config

/-- The url built by the legacy createGitRepo (rnplay-cli.js line 117): the
host carries a hardcoded :jsierles namespace segment. -/
def legacyGitUrl (token urlToken : String) : String :=
  "https://" ++ token ++ ":@git.rnplay.org:jsierles/" ++ urlToken ++ ".git"

/-- The git remote url shape claimed by spec section 6. -/
def gitUrlShape (token urlToken baseHost : String) : String :=
  "https://" ++ token ++ ":@git." ++ baseHost ++ "/" ++ urlToken ++ ".git"

/-- Outcomes of the collaborators of one run of a create workflow: the state
of the global config file, the manifest-declared package name (none when the
manifest has none), the name the interactive prompt would return, the result
of the one HTTP POST, and whether the local-config write and the shell command
succeed. -/
structure CreateEnv where
  globalFile : GlobalFileState
  packageName : Option String
  cliName : String
  apiResult : Except Unit String
  saveLocalOk : Bool
  execOk : Bool

/-- Trace of one run of a create workflow: the API calls issued, the
local-config writes that were persisted, the shell commands handed to exec,
the cli.ok success lines printed at the end, and the settled outcome. -/
structure CreateRun where
  apiCalls : List ApiCall
  localSaves : List LocalConfig
  shellCmds : List String
  okMessages : List String
  outcome : Except Err Unit
deriving DecidableEq

/-- Modelled from the spec: maybeUsePackageName and readRepoNameFromCLI
(utils/input) are not under src; spec section 4.4: prefer the
manifest-declared package name, otherwise prompt. The falsy check is line 104
of src/src/index.js: name ? name : readRepoNameFromCLI(). -/
def resolveName (env : CreateEnv) : String :=
  match env.packageName with
  | some n => if n = "" then env.cliName else n
  | none => env.cliName

/-- createGitRepo of the current implementation (src/src/index.js lines
101-125) as a function of the collaborator outcomes. The steps are: getConfig,
resolve the name, postCreateRepo, saveLocalConfig, execAsync(formatCommand).
Lines 115-118: after execAsync(cmd) succeeds, the continuation evaluates the
array of remoteName and url, two identifiers that are not in scope there (they
live inside formatCommand), so the chain rejects with a ReferenceError and the
cli.ok lines of the final .spread never run. -/
def createGitRepo (env : CreateEnv) : CreateRun :=
  match getConfig env.globalFile with
  | .error e => ⟨[], [], [], [], .error e⟩
  | .ok config =>
    let call := mkApiCall (resolveName env) config
    match env.apiResult with
    | .error _ => ⟨[call], [], [], [], .error .remoteApiError⟩
    | .ok urlToken =>
      if env.saveLocalOk then
        let cmd := formatCommand urlToken config
        if env.execOk then
          ⟨[call], [⟨some urlToken⟩], [cmd], [], .error .referenceError⟩
        else
          ⟨[call], [⟨some urlToken⟩], [cmd], [], .error .shellCommandError⟩
      else
        ⟨[call], [], [], [], .error .saveError⟩

/-- The three cli.ok lines of the legacy createGitRepo (rnplay-cli.js lines
124-127). -/
def legacyOkMessages (url : String) : List String :=
  ["Added remote with name `rnplay and url: `" ++ url ++ "`",
   "All done! Use `git push rnplay master` to push your application.",
   "You can use  `rnplay-cli --open` to open this application on rnplay.org"]

/-- createGitRepo of the legacy implementation (rnplay-cli.js lines 95-129).
The config file is the single merged one; the written urlToken is recorded in
localSaves for uniformity with the current implementation. Here the remote
name and url ARE in scope after the exec, so on success the three cli.ok
lines run and the promise fulfills. -/
def legacyCreateGitRepo (env : CreateEnv) : CreateRun :=
  match readConfigG env.globalFile with
  | .error e => ⟨[], [], [], [], .error e⟩
  | .ok conf =>
    if conf.email = "" ∨ conf.token = "" then ⟨[], [], [], [], .error .invalidConfig⟩
    else
      let call := mkApiCall (resolveName env) conf
      match env.apiResult with
      | .error _ => ⟨[call], [], [], [], .error .remoteApiError⟩
      | .ok urlToken =>
        if env.saveLocalOk then
          let url := legacyGitUrl conf.token urlToken
          let cmd := "git remote add " ++ remoteName ++ " " ++ url
          if env.execOk then
            ⟨[call], [⟨some urlToken⟩], [cmd], legacyOkMessages url, .ok ()⟩
          else
            ⟨[call], [⟨some urlToken⟩], [cmd], [], .error .shellCommandError⟩
        else
          ⟨[call], [], [], [], .error .saveError⟩

/-- Trace of one run of the open workflow: the urls handed to the opener
collaborator, the cli.error lines, and the settled outcome. -/
structure OpenRun where
  openedUrls : List String
  cliErrors : List String
  outcome : Except Err Unit
deriving DecidableEq

/-- The user-facing message of src/src/index.js line 134. -/
def createFirstMsg : String :=
  "You have to create an application using `rnplay --create` first"

/-- openAppInBrowser (src/src/index.js lines 131-141). readLocalConfig
(utils/config) is not under src and is modelled from the spec (section 4.1:
same contract as the global read, scoped to the working directory); its result
is the localRead argument. Note the workflow never consults the global config
file. A falsy urlToken yields only the cli.error message; otherwise the url is
the base url concatenated with the token, handed unchanged to opener. -/
def openAppInBrowser (env : Option String) (localRead : Except Err LocalConfig) : OpenRun :=
  match localRead with
  | .error e => ⟨[], [], .error e⟩
  | .ok lc =>
    if lc.urlToken.getD "" = "" then
      ⟨[], [createFirstMsg], .ok ()⟩
    else
      ⟨[RNPLAY_APP_URL env ++ lc.urlToken.getD ""], [], .ok ()⟩

/-- Outcomes of the collaborators of one run of splitByConfig: the temp
directory, the global config file state, the manifest rnplay mapping (project
name, source path) in object key iteration order, and per-index outcomes of
the cp copy, the HTTP POST, and the fire-and-forget git shell command. -/
structure SplitEnv where
  tmpdir : String
  globalFile : GlobalFileState
  config : List (String × String)
  cpOk : Nat → Bool
  apiResult : Nat → Except Unit String
  gitExecOk : Nat → Bool

/-- One branch of the forEach in splitByConfig (src/src/index.js lines
150-161): execAsync the cp copy first, then getAddRemoteCommand (getConfig,
postCreateRepo, formatCommand), then the combined cd / git init / remote-add
command. Returns the shell commands issued, the API calls issued, and whether
the .done success callback fired. Two facts read off the source: the cp shell
command is issued before any config read, and the final git command (line 158)
uses the plain child_process exec rather than execAsync, so the .then fulfills
with the ChildProcess immediately and the command's outcome (gitExecOk) is
never observed by the chain. -/
def branchSteps (env : SplitEnv) (i : Nat) (proj src : String) :
    List String × List ApiCall × Bool :=
  let target := env.tmpdir ++ "/" ++ proj
  let cpCmd := "cp -r " ++ src ++ " " ++ target
  if env.cpOk i then
    match getConfig env.globalFile with
    | .error _ => ([cpCmd], [], false)
    | .ok cfg =>
      let call := mkApiCall proj cfg
      match env.apiResult i with
      | .error _ => ([cpCmd], [call], false)
      | .ok urlToken =>
        ([cpCmd, "cd " ++ target ++ " && git init && " ++ formatCommand urlToken cfg],
         [call], true)
  else ([cpCmd], [], false)

/-- Trace of one run of splitByConfig: all shell commands issued, all API
calls issued, and whether resolve and reject were called on the promise the
workflow returned. -/
structure SplitRun where
  shellCmds : List String
  apiCalls : List ApiCall
  resolveCalled : Bool
  rejectCalled : Bool
deriving DecidableEq

/-- The forEach of splitByConfig with its index === folders.length - 1 check
(src/src/index.js lines 150-163), folded over the entries carrying the index:
only the branch of the last entry calls resolve, and only when its .done
success callback fires; a branch failure reaches .done with no failure handler
and is rethrown globally instead. The external logger call sequenced before
resolve (line 160) is modelled as proceeding into resolve. -/
def splitGo (env : SplitEnv) : Nat → List (String × String) → List String × List ApiCall × Bool
  | _, [] => ([], [], false)
  | i, (p, s) :: rest =>
    let st := branchSteps env i p s
    match rest with
    | [] => st
    | q :: rest2 =>
      let r := splitGo env (i + 1) (q :: rest2)
      (st.1 ++ r.1, st.2.1 ++ r.2.1, r.2.2)

/-- splitByConfig (src/src/index.js lines 143-166). The identifier reject is
bound by the Promise executor and never referenced, so rejectCalled is false
on every run. -/
def splitByConfig (env : SplitEnv) : SplitRun :=
  let r := splitGo env 0 env.config
  ⟨r.1, r.2.1, r.2.2, false⟩

/-! ### The legacy config store at the byte level (for the round-trip claim) -/

def wsChar (c : Char) : Bool := c == ' ' || c == '\n' || c == '\t' || c == '\r'

def obrace : Char := Char.ofNat 123

def cbrace : Char := Char.ofNat 125

def dquote : Char := Char.ofNat 34

/-- Parse one double-quoted, escape-free string literal. -/
def parseStrLit : List Char → Option (String × List Char)
  | c :: rest =>
    if c == dquote then
      match rest.dropWhile (fun x => x != dquote) with
      | c2 :: r =>
        if c2 == dquote then some (String.mk (rest.takeWhile (fun x => x != dquote)), r)
        else none
      | [] => none
    else none
  | [] => none

def expectChar (c : Char) : List Char → Option (List Char)
  | x :: r => if x == c then some r else none
  | [] => none

/-- Parse the members of a flat JSON object, after its opening brace. -/
def parseMembers : Nat → List Char → Option (List (String × String) × List Char)
  | 0, _ => none
  | Nat.succ fuel, l =>
    match parseStrLit (l.dropWhile wsChar) with
    | none => none
    | some (k, r1) =>
      match expectChar ':' (r1.dropWhile wsChar) with
      | none => none
      | some r2 =>
        match parseStrLit (r2.dropWhile wsChar) with
        | none => none
        | some (v, r3) =>
          match r3.dropWhile wsChar with
          | c :: r4 =>
            if c == ',' then
              match parseMembers fuel r4 with
              | some (ms, r5) => some ((k, v) :: ms, r5)
              | none => none
            else if c == cbrace then some ([(k, v)], r4)
            else none
          | [] => none

/-- JSON.parse restricted to the grammar the config files of this program use:
one flat object whose keys and values are double-quoted escape-free strings,
with surrounding whitespace. -/
def jsonParseFlat (s : String) : Option (List (String × String)) :=
  match expectChar obrace (s.data.dropWhile wsChar) with
  | none => none
  | some r =>
    match r.dropWhile wsChar with
    | c :: _ =>
      if c == cbrace then
        if (((r.dropWhile wsChar).drop 1).dropWhile wsChar).isEmpty then some [] else none
      else
        match parseMembers (r.length + 1) r with
        | some (ms, rest) => if (rest.dropWhile wsChar).isEmpty then some ms else none
        | none => none
    | [] => none

/-- JSON.stringify of the object saved by the legacy createConfig
(rnplay-cli.js lines 79-82): keys in insertion order, token then email. -/
def stringifyGlobal (c : GlobalConfig) : String :=
  "\x7b\"token\":\"" ++ c.token ++ "\",\"email\":\"" ++ c.email ++ "\"\x7d"

/-- saveConfig (rnplay-cli.js lines 63-65): overwrite the file with
JSON.stringify of the config plus a newline. The file-system state is the
Option String contents of the config file. -/
def saveConfigFS (c : GlobalConfig) (_fs : Option String) : Option String :=
  some (stringifyGlobal c ++ "\n")

/-- readConfig (rnplay-cli.js lines 53-61): read the file and JSON.parse it;
any failure becomes the missing-or-corrupt error. Yields the parsed members. -/
def readConfigFS (fs : Option String) : Except Err (List (String × String)) :=
  match fs with
  | none => .error .configMissingOrCorrupt
  | some s =>
    match jsonParseFlat s with
    | some ms => .ok ms
    | none => .error .configMissingOrCorrupt

/-! ### Substring search used to state the body / command containment claims -/

/-- needle is a prefix of hay, on character lists. -/
def hasPre : List Char → List Char → Bool
  | [], _ => true
  | _ :: _, [] => false
  | a :: as, b :: bs => a == b && hasPre as bs

/-- needle occurs somewhere in hay, on character lists. -/
def hasSub (n : List Char) : List Char → Bool
  | [] => n.isEmpty
  | c :: hs => hasPre n (c :: hs) || hasSub n hs

/-- needle occurs somewhere in hay. -/
def strContains (needle hay : String) : Bool := hasSub needle.data hay.data

/-- A global config file state that is missing or malformed in the sense of
the spec: absent, unparsable, or parsed but with a falsy token or email. -/
def badGlobal : GlobalFileState → Prop
  | .missing => True
  | .corrupt => True
  | .valid c => c.token = "" ∨ c.email = ""

/-! ### Helper lemmas -/

theorem hasPre_self_append (n b : List Char) : hasPre n (n ++ b) = true := by
  induction n with
  | nil => rfl
  | cons a as ih => simp [hasPre, ih]

theorem hasSub_self_append (n b : List Char) : hasSub n (n ++ b) = true := by
  cases n with
  | nil =>
    cases b with
    | nil => rfl
    | cons c cs => simp [hasSub, hasPre]
  | cons a as => simp [hasSub, hasPre, hasPre_self_append]

theorem hasSub_append_left (n h a : List Char) (hh : hasSub n h = true) :
    hasSub n (a ++ h) = true := by
  induction a with
  | nil => simpa using hh
  | cons c cs ih => simp [hasSub, ih]

theorem strContains_of_data_eq (needle hay : String) (a b : List Char)
    (he : hay.data = a ++ (needle.data ++ b)) : strContains needle hay = true := by
  rw [strContains, he]
  exact hasSub_append_left _ _ _ (hasSub_self_append _ _)

theorem checkConfig_ok (c : GlobalConfig) (hT : c.token ≠ "") (hE : c.email ≠ "") :
    checkConfig c = .ok c := by
  rw [checkConfig, if_neg]
  rintro (h | h)
  · exact hE h
  · exact hT h

theorem splitGo_last (env : SplitEnv) (p s : String) :
    ∀ (pre : List (String × String)) (i : Nat),
      (splitGo env i (pre ++ [(p, s)])).2.2 = (branchSteps env (i + pre.length) p s).2.2 := by
  intro pre
  induction pre with
  | nil => intro i; simp [splitGo]
  | cons q pre ih =>
    intro i
    obtain ⟨q1, q2⟩ := q
    cases hp : pre ++ [(p, s)] with
    | nil => simp at hp
    | cons c t =>
      have h2 := ih (i + 1)
      rw [hp] at h2
      have harith : i + 1 + pre.length = i + (pre.length + 1) := by omega
      calc (splitGo env i (((q1, q2) :: pre) ++ [(p, s)])).2.2
          = (splitGo env (i + 1) (c :: t)).2.2 := by
            rw [List.cons_append, hp]; simp [splitGo]
        _ = (branchSteps env (i + (pre.length + 1)) p s).2.2 := by rw [h2, harith]
        _ = (branchSteps env (i + ((q1, q2) :: pre).length) p s).2.2 := by
            simp [List.length_cons]

theorem splitGo_badConfig (env : SplitEnv) (e : Err) (h : getConfig env.globalFile = .error e) :
    ∀ (l : List (String × String)) (i : Nat),
      (splitGo env i l).2.1 = [] ∧ (splitGo env i l).2.2 = false := by
  intro l
  induction l with
  | nil => intro i; simp [splitGo]
  | cons q rest ih =>
    intro i
    obtain ⟨p, s⟩ := q
    have hb : (branchSteps env i p s).2.1 = [] ∧ (branchSteps env i p s).2.2 = false := by
      rw [branchSteps]
      cases env.cpOk i <;> simp [h]
    cases rest with
    | nil => simpa [splitGo] using hb
    | cons q2 rest2 =>
      have h2 := ih (i + 1)
      simp [splitGo, hb.1, hb.2, h2.1, h2.2]

/-! ### Claims -/

/-- A split environment whose global config file is absent; the manifest has
one entry. Used for claims about workflows run without a usable config. -/
def splitEnvNoGlobal : SplitEnv :=
  ⟨"/tmp", .missing, [("app", "srcdir")], fun _ => true, fun _ => .ok "u", fun _ => true⟩

/-- C1, counterexample: with the global config file missing, the split
workflow nevertheless issues its per-entry cp shell command, and it never
fails with any config error: neither resolve nor reject is ever called on its
promise, so the claim that every non-authenticate workflow fails with
ConfigMissingOrCorrupt or InvalidConfig before issuing any shell command is
false for split. -/
theorem claim_C1_counterexample :
    (splitByConfig splitEnvNoGlobal).shellCmds = ["cp -r srcdir /tmp/app"] ∧
    (splitByConfig splitEnvNoGlobal).resolveCalled = false ∧
    (splitByConfig splitEnvNoGlobal).rejectCalled = false := by decide

/-- C1, amended: for every missing or malformed global config state, the
create workflow of both implementations fails with ConfigMissingOrCorrupt or
InvalidConfig having issued no API call and no shell command; the split
workflow issues no API call and never settles (it neither resolves nor
rejects); the open workflow of the current implementation never consults the
global config at all (see openAppInBrowser). -/
theorem claim_C1_amended (g : GlobalFileState) (hg : badGlobal g)
    (envC : CreateEnv) (hc : envC.globalFile = g)
    (envS : SplitEnv) (hs : envS.globalFile = g) :
    ((createGitRepo envC).apiCalls = [] ∧ (createGitRepo envC).shellCmds = [] ∧
      ((createGitRepo envC).outcome = .error .configMissingOrCorrupt ∨
        (createGitRepo envC).outcome = .error .invalidConfig)) ∧
    ((legacyCreateGitRepo envC).apiCalls = [] ∧ (legacyCreateGitRepo envC).shellCmds = [] ∧
      ((legacyCreateGitRepo envC).outcome = .error .configMissingOrCorrupt ∨
        (legacyCreateGitRepo envC).outcome = .error .invalidConfig)) ∧
    ((splitByConfig envS).apiCalls = [] ∧ (splitByConfig envS).resolveCalled = false ∧
      (splitByConfig envS).rejectCalled = false) := by
  have hget : ∃ e, getConfig g = .error e ∧
      (e = .configMissingOrCorrupt ∨ e = .invalidConfig) := by
    cases g with
    | missing => exact ⟨.configMissingOrCorrupt, rfl, Or.inl rfl⟩
    | corrupt => exact ⟨.configMissingOrCorrupt, rfl, Or.inl rfl⟩
    | valid c =>
      refine ⟨.invalidConfig, ?_, Or.inr rfl⟩
      have hg2 : c.token = "" ∨ c.email = "" := hg
      show checkConfig c = .error .invalidConfig
      rw [checkConfig, if_pos (Or.symm hg2)]
  obtain ⟨e, hgete, he⟩ := hget
  refine ⟨?_, ?_, ?_⟩
  · have hC : createGitRepo envC = ⟨[], [], [], [], .error e⟩ := by
      unfold createGitRepo
      rw [hc, hgete]
    rw [hC]
    exact ⟨rfl, rfl, he.imp (fun h2 => by rw [h2]) (fun h2 => by rw [h2])⟩
  · have hL : ∃ e2, legacyCreateGitRepo envC = ⟨[], [], [], [], .error e2⟩ ∧
        (e2 = .configMissingOrCorrupt ∨ e2 = .invalidConfig) := by
      cases g with
      | missing =>
        exact ⟨.configMissingOrCorrupt,
          by unfold legacyCreateGitRepo; rw [hc]; exact rfl, Or.inl rfl⟩
      | corrupt =>
        exact ⟨.configMissingOrCorrupt,
          by unfold legacyCreateGitRepo; rw [hc]; exact rfl, Or.inl rfl⟩
      | valid c =>
        refine ⟨.invalidConfig, ?_, Or.inr rfl⟩
        have hg2 : c.token = "" ∨ c.email = "" := hg
        unfold legacyCreateGitRepo
        rw [hc]
        show (if c.email = "" ∨ c.token = "" then _ else _) = _
        rw [if_pos (Or.symm hg2)]
    obtain ⟨e2, hL2, he2⟩ := hL
    rw [hL2]
    exact ⟨rfl, rfl, he2.imp (fun h2 => by rw [h2]) (fun h2 => by rw [h2])⟩
  · have hbad : getConfig envS.globalFile = .error e := by rw [hs]; exact hgete
    have hsg := splitGo_badConfig envS e hbad envS.config 0
    exact ⟨by simpa [splitByConfig] using hsg.1, by simpa [splitByConfig] using hsg.2, rfl⟩

/-- A create environment whose global config file is absent. -/
def envCreateMissing : CreateEnv := ⟨.missing, some "demo", "x", .ok "u", true, true⟩

/-- C1, witness for the amended theorem at the missing file state. -/
theorem claim_C1_witness :
    badGlobal .missing ∧
    (((createGitRepo envCreateMissing).apiCalls = [] ∧
        (createGitRepo envCreateMissing).shellCmds = [] ∧
        ((createGitRepo envCreateMissing).outcome = .error .configMissingOrCorrupt ∨
          (createGitRepo envCreateMissing).outcome = .error .invalidConfig)) ∧
      ((legacyCreateGitRepo envCreateMissing).apiCalls = [] ∧
        (legacyCreateGitRepo envCreateMissing).shellCmds = [] ∧
        ((legacyCreateGitRepo envCreateMissing).outcome = .error .configMissingOrCorrupt ∨
          (legacyCreateGitRepo envCreateMissing).outcome = .error .invalidConfig)) ∧
      ((splitByConfig splitEnvNoGlobal).apiCalls = [] ∧
        (splitByConfig splitEnvNoGlobal).resolveCalled = false ∧
        (splitByConfig splitEnvNoGlobal).rejectCalled = false)) :=
  ⟨trivial, claim_C1_amended .missing trivial envCreateMissing rfl splitEnvNoGlobal rfl⟩

/-- C2: with a valid global config and a manifest-declared package name demo,
the create workflow of the current implementation issues exactly one API call
(whose body contains the pair name demo), persists exactly one local config
holding the url token the API returned, and hands exactly one command to the
shell; that command contains the url token and the literal remote name
rnplay. -/
theorem claim_C2 (cfg : GlobalConfig) (tok cliName : String)
    (hT : cfg.token ≠ "") (hE : cfg.email ≠ "") (b : Bool) :
    createGitRepo ⟨.valid cfg, some "demo", cliName, .ok tok, true, b⟩ =
      ⟨[mkApiCall "demo" cfg], [⟨some tok⟩], [formatCommand tok cfg], [],
        .error (if b then .referenceError else .shellCommandError)⟩ ∧
    strContains "\"name\":\"demo\"" (jsonStringifyApp "demo") = true ∧
    strContains tok (formatCommand tok cfg) = true ∧
    strContains remoteName (formatCommand tok cfg) = true := by
  refine ⟨?_, by decide, ?_, ?_⟩
  · have hok : getConfig (GlobalFileState.valid cfg) = .ok cfg := by
      show checkConfig cfg = .ok cfg
      exact checkConfig_ok cfg hT hE
    cases b <;> simp [createGitRepo, hok, resolveName]
  · exact strContains_of_data_eq tok (formatCommand tok cfg)
      ("git remote add ".data ++ (remoteName.data ++ (" ".data ++ ("https://".data ++
        (cfg.token.data ++ ":@git.rnplay.org/".data))))) (".git".data)
      (by simp [formatCommand, gitUrl, List.append_assoc])
  · exact strContains_of_data_eq remoteName (formatCommand tok cfg)
      ("git remote add ".data)
      (" ".data ++ ("https://".data ++ (cfg.token.data ++ (":@git.rnplay.org/".data ++
        (tok.data ++ ".git".data)))))
      (by simp [formatCommand, gitUrl, List.append_assoc])

/-- C2, witness at the config token t / email e, url token abc. -/
theorem claim_C2_witness :
    (GlobalConfig.mk "t" "e").token ≠ "" ∧ (GlobalConfig.mk "t" "e").email ≠ "" ∧
    (createGitRepo ⟨.valid ⟨"t", "e"⟩, some "demo", "x", .ok "abc", true, true⟩ =
        ⟨[mkApiCall "demo" ⟨"t", "e"⟩], [⟨some "abc"⟩], [formatCommand "abc" ⟨"t", "e"⟩], [],
          .error (if true then .referenceError else .shellCommandError)⟩ ∧
      strContains "\"name\":\"demo\"" (jsonStringifyApp "demo") = true ∧
      strContains "abc" (formatCommand "abc" ⟨"t", "e"⟩) = true ∧
      strContains remoteName (formatCommand "abc" ⟨"t", "e"⟩) = true) :=
  ⟨by decide, by decide, claim_C2 ⟨"t", "e"⟩ "abc" "x" (by decide) (by decide) true⟩

/-- A fully successful create environment: valid config, manifest name demo,
API returns url token u, local save and shell command both succeed. -/
def envC3 : CreateEnv := ⟨.valid ⟨"t", "e"⟩, some "demo", "x", .ok "u", true, true⟩

/-- C3: evaluation at the failing input. In the current implementation, even
though the git-remote-add shell command was issued and succeeded, the workflow
prints no success lines and settles with the ReferenceError produced by the
out-of-scope identifiers remoteName and url (src/src/index.js line 117); the
legacy implementation on the same environment reports the three success lines
and fulfills. The claim describes the intended (and legacy) behaviour; the
current code is a slip. -/
theorem claim_C3_bug_eval :
    (createGitRepo envC3).shellCmds = [formatCommand "u" ⟨"t", "e"⟩] ∧
    (createGitRepo envC3).okMessages = [] ∧
    (createGitRepo envC3).outcome = .error .referenceError ∧
    (legacyCreateGitRepo envC3).okMessages = legacyOkMessages (legacyGitUrl "t" "u") ∧
    (legacyCreateGitRepo envC3).outcome = .ok () := by decide

/-- C4: for every local config with no urlToken, the open workflow opens no
URL and reports only the run-create-first message; and with urlToken abc123 it
opens exactly the base url concatenated with abc123, passed unchanged to the
opener collaborator. -/
theorem claim_C4 (env : Option String) (lc : LocalConfig) (h : lc.urlToken = none) :
    openAppInBrowser env (.ok lc) = ⟨[], [createFirstMsg], .ok ()⟩ ∧
    openAppInBrowser env (.ok ⟨some "abc123"⟩) =
      ⟨[RNPLAY_APP_URL env ++ "abc123"], [], .ok ()⟩ := by
  constructor
  · simp [openAppInBrowser, h]
  · rfl

/-- C4, witness at the empty local config and no environment prefix. -/
theorem claim_C4_witness :
    (LocalConfig.mk none).urlToken = none ∧
    (openAppInBrowser none (.ok ⟨none⟩) = ⟨[], [createFirstMsg], .ok ()⟩ ∧
      openAppInBrowser none (.ok ⟨some "abc123"⟩) =
        ⟨[RNPLAY_APP_URL none ++ "abc123"], [], .ok ()⟩) :=
  ⟨rfl, claim_C4 none ⟨none⟩ rfl⟩

/-- C5: for every split configuration with at least one entry, the promise
returned by splitByConfig has resolve called exactly when the branch of the
last entry (in key iteration order) reaches its done-success callback; the
equality holds for every assignment of outcomes to the other branches, so
whether they completed is irrelevant. -/
theorem claim_C5 (env : SplitEnv) (pre : List (String × String)) (p s : String)
    (h : env.config = pre ++ [(p, s)]) :
    (splitByConfig env).resolveCalled = (branchSteps env pre.length p s).2.2 := by
  have h0 := splitGo_last env p s pre 0
  simp only [splitByConfig, h]
  simpa using h0

/-- A one-entry split environment where every collaborator succeeds. -/
def splitEnvC5 : SplitEnv :=
  ⟨"/tmp", .valid ⟨"t", "e"⟩, [("a", "x")], fun _ => true, fun _ => .ok "u", fun _ => true⟩

/-- C5, witness at a one-entry configuration. -/
theorem claim_C5_witness :
    splitEnvC5.config = [] ++ [("a", "x")] ∧
    (splitByConfig splitEnvC5).resolveCalled =
      (branchSteps splitEnvC5 (List.length ([] : List (String × String))) "a" "x").2.2 :=
  ⟨rfl, claim_C5 splitEnvC5 [] "a" "x" rfl⟩

/-- C6: for a split configuration with zero entries, resolve is never called
(and neither is reject): the returned promise never settles. -/
theorem claim_C6 (env : SplitEnv) (h : env.config = []) :
    (splitByConfig env).resolveCalled = false ∧ (splitByConfig env).rejectCalled = false := by
  simp [splitByConfig, h, splitGo]

/-- A zero-entry split environment. -/
def splitEnvEmpty : SplitEnv :=
  ⟨"/tmp", .valid ⟨"t", "e"⟩, [], fun _ => true, fun _ => .ok "u", fun _ => true⟩

/-- C6, witness at the empty configuration. -/
theorem claim_C6_witness :
    splitEnvEmpty.config = [] ∧
    ((splitByConfig splitEnvEmpty).resolveCalled = false ∧
      (splitByConfig splitEnvEmpty).rejectCalled = false) :=
  ⟨rfl, claim_C6 splitEnvEmpty rfl⟩

/-- C7, counterexample: the legacy implementation's web URL has host
rnplay.org with no environment prefix even when the variable is set (so, at
value staging, its host does not start with the prefix the claim requires),
and the legacy API endpoint carries the staging prefix even when the variable
is unset. -/
theorem claim_C7_counterexample :
    hostOf RN_PLAY_APP_URL_legacy = "rnplay.org" ∧
    hasPre ("staging.".data) (hostOf RN_PLAY_APP_URL_legacy).data = false ∧
    hostOf APP_ENDPOINT_legacy = "staging.rnplay.org" := by decide

theorem hostOf_data (u : String) (v rest : List Char)
    (hu : u.data = "https://".data ++ (v ++ rest))
    (hv : ∀ c ∈ v, (c != '/') = true)
    (hr : rest.takeWhile (fun c => c != '/') = ".rnplay.org".data) :
    hostOf u = String.mk (v ++ ".rnplay.org".data) := by
  apply String.ext
  simp only [hostOf]
  rw [hu, List.drop_left' (by decide : ("https://".data).length = 8),
    List.takeWhile_append_of_pos hv, hr]

/-- C7, amended: in the current implementation the environment value (any
value not containing a slash) prefixes, followed by a dot, the hostname of
both the web URL and the API endpoint, and no prefix is applied when it is
unset; the legacy implementation ignores the variable: its web URL host is
always rnplay.org and its API host is always staging.rnplay.org. -/
theorem claim_C7_amended (v : String) (hv : ∀ c ∈ v.data, (c != '/') = true) :
    hostOf (RNPLAY_APP_URL (some v)) = v ++ ".rnplay.org" ∧
    hostOf (apiEndpointCurrent (some v)) = v ++ ".rnplay.org" ∧
    hostOf (RNPLAY_APP_URL none) = "rnplay.org" ∧
    hostOf (apiEndpointCurrent none) = "rnplay.org" ∧
    hostOf RN_PLAY_APP_URL_legacy = "rnplay.org" ∧
    hostOf APP_ENDPOINT_legacy = "staging.rnplay.org" := by
  refine ⟨?_, ?_, by decide, by decide, by decide, by decide⟩
  · calc hostOf (RNPLAY_APP_URL (some v))
        = String.mk (v.data ++ ".rnplay.org".data) :=
          hostOf_data _ v.data (".".data ++ "rnplay.org/apps/".data)
            (by simp [RNPLAY_APP_URL, PREFIX, List.append_assoc]) hv (by decide)
      _ = v ++ ".rnplay.org" := String.ext rfl
  · calc hostOf (apiEndpointCurrent (some v))
        = String.mk (v.data ++ ".rnplay.org".data) :=
          hostOf_data _ v.data (".".data ++ "rnplay.org/apps.json".data)
            (by simp [apiEndpointCurrent, PREFIX, List.append_assoc]) hv (by decide)
      _ = v ++ ".rnplay.org" := String.ext rfl

/-- C7, witness for the amended theorem at the value staging. -/
theorem claim_C7_witness :
    (∀ c ∈ "staging".data, (c != '/') = true) ∧
    (hostOf (RNPLAY_APP_URL (some "staging")) = "staging" ++ ".rnplay.org" ∧
      hostOf (apiEndpointCurrent (some "staging")) = "staging" ++ ".rnplay.org" ∧
      hostOf (RNPLAY_APP_URL none) = "rnplay.org" ∧
      hostOf (apiEndpointCurrent none) = "rnplay.org" ∧
      hostOf RN_PLAY_APP_URL_legacy = "rnplay.org" ∧
      hostOf APP_ENDPOINT_legacy = "staging.rnplay.org") :=
  ⟨by decide, claim_C7_amended "staging" (by decide)⟩

/-- C8, counterexample: at token t and url token u, the url built by the
legacy create workflow fits the claimed shape for no base host (a hostname
cannot contain a colon): the only candidate is rnplay.org:jsierles, which
contains one. -/
theorem claim_C8_counterexample :
    ¬ ∃ h : String, (':' ∈ h.data → False) ∧
      legacyGitUrl "t" "u" = gitUrlShape "t" "u" h := by
  rintro ⟨h, hno, heq⟩
  have hd := congrArg String.data heq
  simp only [legacyGitUrl, gitUrlShape, String.data_append, List.append_assoc] at hd
  have hd2 := List.append_cancel_left hd
  have hd3 := List.append_cancel_left hd2
  rw [show ([':', '@', 'g', 'i', 't', '.', 'r', 'n', 'p', 'l', 'a', 'y', '.', 'o', 'r',
        'g', ':', 'j', 's', 'i', 'e', 'r', 'l', 'e', 's', '/'] : List Char) =
      [':', '@', 'g', 'i', 't', '.'] ++
        (['r', 'n', 'p', 'l', 'a', 'y', '.', 'o', 'r', 'g', ':', 'j', 's', 'i', 'e', 'r',
          'l', 'e', 's'] ++ ['/']) from by decide] at hd3
  simp only [List.append_assoc] at hd3
  have hd4 := List.append_cancel_left hd3
  have hd5 := List.append_cancel_right hd4
  apply hno
  rw [← hd5]
  decide

/-- C8, amended: for every token and url token, the current implementation's
git remote url has exactly the claimed shape with base host rnplay.org; the
legacy implementation's url instead matches the shape only with the colon-
bearing pseudo-host rnplay.org:jsierles, i.e. it inserts a hardcoded
:jsierles segment between the host and the url token. -/
theorem claim_C8_amended (c : GlobalConfig) (u : String) :
    gitUrl u c = gitUrlShape c.token u "rnplay.org" ∧
    legacyGitUrl c.token u = gitUrlShape c.token u "rnplay.org:jsierles" := by
  constructor
  · apply String.ext
    simp [gitUrl, gitUrlShape, List.append_assoc,
      show (":@git.rnplay.org/").data = ":@git.".data ++ ("rnplay.org".data ++ "/".data)
        from by decide]
  · apply String.ext
    simp [legacyGitUrl, gitUrlShape, List.append_assoc,
      show (":@git.rnplay.org:jsierles/").data =
        ":@git.".data ++ ("rnplay.org:jsierles".data ++ "/".data) from by decide]

/-- C9: saving the global config with token t and email e through the legacy
store and reading it back yields exactly those two members, whatever the file
held before: JSON.parse of the written bytes recovers the object. -/
theorem claim_C9 : ∀ fs0 : Option String,
    readConfigFS (saveConfigFS ⟨"t", "e"⟩ fs0) = .ok [("token", "t"), ("email", "e")] := by
  intro fs0
  rw [show saveConfigFS ⟨"t", "e"⟩ fs0 = some (stringifyGlobal ⟨"t", "e"⟩ ++ "\n") from rfl]
  decide

/-- A one-entry split environment where the copy and the API call succeed but
the fire-and-forget git shell command fails. -/
def envC10 : SplitEnv :=
  ⟨"/tmp", .valid ⟨"t", "e"⟩, [("a", "x")], fun _ => true, fun _ => .ok "u", fun _ => false⟩

/-- C10, counterexample: the git shell command of the last (only) entry fails,
yet resolve is still called: the command's outcome is never observed because
splitByConfig launches it with the plain exec and the .then fulfills with the
ChildProcess immediately. So a failure at the git-shell-command step does not
make the promise hang, contradicting the claim's any-step quantification. -/
theorem claim_C10_counterexample :
    envC10.gitExecOk 0 = false ∧
    (splitByConfig envC10).resolveCalled = true ∧
    (splitByConfig envC10).shellCmds =
      ["cp -r x /tmp/a", "cd /tmp/a && git init && " ++ formatCommand "u" ⟨"t", "e"⟩] := by
  decide

/-- C10, amended: for every split configuration with at least one entry, if
the branch of the last entry fails at the directory copy or at remote
provisioning (config read / validation or the API call), the promise returned
by splitByConfig never settles: resolve and reject are both never called,
regardless of the other branches; a failure of the fire-and-forget git shell
command, by contrast, is never observed. -/
theorem claim_C10_amended (env : SplitEnv) (pre : List (String × String)) (p s : String)
    (h : env.config = pre ++ [(p, s)])
    (hfail : env.cpOk pre.length = false ∨
      (∃ e, getConfig env.globalFile = .error e) ∨
      env.apiResult pre.length = .error ()) :
    (splitByConfig env).resolveCalled = false ∧ (splitByConfig env).rejectCalled = false := by
  refine ⟨?_, rfl⟩
  have h0 := splitGo_last env p s pre 0
  simp only [splitByConfig, h]
  simp only [Nat.zero_add] at h0
  have hb : (branchSteps env pre.length p s).2.2 = false := by
    rw [branchSteps]
    rcases hfail with hcp | ⟨e, hcfg⟩ | hapi
    · simp [hcp]
    · cases env.cpOk pre.length <;> simp [hcfg]
    · cases env.cpOk pre.length <;> cases hcfg2 : getConfig env.globalFile <;> simp [hapi]
  simpa [hb] using h0

/-- A one-entry split environment with a missing global config file. -/
def envC10w : SplitEnv :=
  ⟨"/tmp", .missing, [("a", "x")], fun _ => true, fun _ => .ok "u", fun _ => true⟩

/-- C10, witness for the amended theorem: the last entry's provisioning fails
because the global config is missing. -/
theorem claim_C10_witness :
    envC10w.config = [] ++ [("a", "x")] ∧
    (envC10w.cpOk (List.length ([] : List (String × String))) = false ∨
      (∃ e, getConfig envC10w.globalFile = .error e) ∨
      envC10w.apiResult (List.length ([] : List (String × String))) = .error ()) ∧
    ((splitByConfig envC10w).resolveCalled = false ∧
      (splitByConfig envC10w).rejectCalled = false) :=
  ⟨rfl, Or.inr (Or.inl ⟨.configMissingOrCorrupt, rfl⟩),
    claim_C10_amended envC10w [] "a" "x" rfl (Or.inr (Or.inl ⟨.configMissingOrCorrupt, rfl⟩))⟩

end Rnplay
